import Mathlib

/-!
Shallow embedding of the measurement-capture core of `src/main.rs` (the sampo
application): the undo/redo history engine, the derived-state projector, the
geometric snapping functions, and the click / calibration-submission handlers.
Rust `f32` values are modelled as real numbers; `Vec` as `List`; `usize` as `Nat`.
-/

open Real

namespace Sampo

/-- `egui::Pos2`: an image-space point. -/
structure Pos2 where
  x : ℝ
  y : ℝ

/-- `egui::Pos2::distance`: Euclidean distance between two points. -/
noncomputable def Pos2.distance (a b : Pos2) : ℝ :=
  Real.sqrt ((b.x - a.x) ^ 2 + (b.y - a.y) ^ 2)

/-- `Measurement` from `src/main.rs` (a line measurement). The Rust field `end`
is named `endp` here because `end` is a Lean keyword. -/
structure Measurement where
  start : ℝ × ℝ
  endp : ℝ × ℝ
  distance_px : ℝ

/-- `Measurement::new`: caches the Euclidean distance at creation. -/
noncomputable def Measurement.new (start pend : Pos2) : Measurement :=
  { start := (start.x, start.y)
    endp := (pend.x, pend.y)
    distance_px := Pos2.distance start pend }

/-- `RectangleMeasurement` from `src/main.rs`. -/
structure RectangleMeasurement where
  corner1 : ℝ × ℝ
  corner2 : ℝ × ℝ
  width_px : ℝ
  height_px : ℝ
  area_px : ℝ

/-- `RectangleMeasurement::new`. -/
def RectangleMeasurement.new (corner1 corner2 : Pos2) : RectangleMeasurement :=
  { corner1 := (corner1.x, corner1.y)
    corner2 := (corner2.x, corner2.y)
    width_px := |corner2.x - corner1.x|
    height_px := |corner2.y - corner1.y|
    area_px := |corner2.x - corner1.x| * |corner2.y - corner1.y| }

/-- `Calibration` from `src/main.rs`. -/
structure Calibration where
  pixels_per_unit : ℝ
  unit_name : String

/-- `Action`: the tagged variant logged by the history engine. -/
inductive Action where
  | AddLine (m : Measurement)
  | AddRect (r : RectangleMeasurement)
  | RemoveLine (index : Nat)
  | RemoveRect (index : Nat)
  | SetCalibration (cal : Option Calibration)

/-- `History`: the cursor-addressed action log. -/
structure History where
  actions : List Action
  cursor : Nat

/-- `History::push_action`: truncate the redo tail (if any), append, move the
cursor to the end. -/
def History.push_action (h : History) (action : Action) : History :=
  let acts := if h.cursor < h.actions.length then h.actions.take h.cursor else h.actions
  let acts2 := acts ++ [action]
  { actions := acts2, cursor := acts2.length }

/-- `History::can_undo`. -/
def History.can_undo (h : History) : Bool :=
  decide (0 < h.cursor)

/-- `History::can_redo`. -/
def History.can_redo (h : History) : Bool :=
  decide (h.cursor < h.actions.length)

/-- `History::undo`: returns the Rust `bool` result together with the updated
history (explicit state passing for `&mut self`). -/
def History.undo (h : History) : Bool × History :=
  if h.can_undo then (true, { h with cursor := h.cursor - 1 }) else (false, h)

/-- `History::redo`. -/
def History.redo (h : History) : Bool × History :=
  if h.can_redo then (true, { h with cursor := h.cursor + 1 }) else (false, h)

/-- The three accumulators of `History::rebuild_state`. -/
structure DerivedState where
  measurements : List Measurement
  rectangle_measurements : List RectangleMeasurement
  calibration : Option Calibration

/-- One step of the replay loop in `History::rebuild_state`. -/
def applyAction (s : DerivedState) (action : Action) : DerivedState :=
  match action with
  | .AddLine m => { s with measurements := s.measurements ++ [m] }
  | .AddRect r => { s with rectangle_measurements := s.rectangle_measurements ++ [r] }
  | .RemoveLine index =>
      if index < s.measurements.length then
        { s with measurements := s.measurements.eraseIdx index }
      else s
  | .RemoveRect index =>
      if index < s.rectangle_measurements.length then
        { s with rectangle_measurements := s.rectangle_measurements.eraseIdx index }
      else s
  | .SetCalibration cal => { s with calibration := cal }

/-- `History::rebuild_state`: fold `actions[0..cursor]` over empty accumulators. -/
def History.rebuild_state (h : History) : DerivedState :=
  (h.actions.take h.cursor).foldl applyAction ⟨[], [], none⟩

/-- `History::reset_with_calibration`: clear the log, optionally seeding it with
a single `SetCalibration` action. -/
def History.reset_with_calibration (_h : History) (calibration : Option Calibration) : History :=
  match calibration with
  | some cal => { actions := [Action.SetCalibration (some cal)], cursor := 1 }
  | none => { actions := [], cursor := 0 }

/-- The history invariant stated in the spec: `cursor ≤ actions.len()`
(`0 ≤ cursor` is automatic for `Nat`). -/
def history_inv (h : History) : Prop :=
  h.cursor ≤ h.actions.length

/-- A sequence of `push_action` calls, in order. -/
def push_list (acts : List Action) (h : History) : History :=
  acts.foldl History.push_action h

/-- `k` successive `undo()` calls; the boolean is the conjunction of the
individual results. -/
def undo_iter : Nat → History → Bool × History
  | 0, h => (true, h)
  | n + 1, h =>
      let r := h.undo
      let r2 := undo_iter n r.2
      (r.1 && r2.1, r2.2)

/-- `k` successive `redo()` calls; the boolean is the conjunction of the
individual results. -/
def redo_iter : Nat → History → Bool × History
  | 0, h => (true, h)
  | n + 1, h =>
      let r := h.redo
      let r2 := redo_iter n r.2
      (r.1 && r2.1, r2.2)

/-- `SNAP_ANGLE_TOLERANCE_DEG` from `src/main.rs`. -/
def snap_angle_tolerance_deg : ℝ := 5.0

/-- Rust `f32::atan2(y, x)`, modelled over the reals as the principal argument
of the complex number `x + y·i` (range `(-π, π]`). -/
noncomputable def atan2 (y x : ℝ) : ℝ := Complex.arg ⟨x, y⟩

/-- Rust `f32::to_degrees`. -/
noncomputable def toDegrees (r : ℝ) : ℝ := r * (180 / Real.pi)

/-- Rust `f32::to_radians`. -/
noncomputable def toRadians (d : ℝ) : ℝ := d * (Real.pi / 180)

/-- Rust `f32::round`: round to the nearest integer, ties away from zero. -/
noncomputable def rust_round (x : ℝ) : ℝ :=
  if x < 0 then -((⌊-x + 1 / 2⌋ : ℤ) : ℝ) else ((⌊x + 1 / 2⌋ : ℤ) : ℝ)

/-- Rust `f32::signum`; the real model has no negative zero, so `signum 0 = 1`. -/
noncomputable def rust_signum (x : ℝ) : ℝ :=
  if x < 0 then -1 else 1

/-- The candidate snap angles of `snap_to_angle`, in source order. -/
def snap_angles : List ℝ := [0, 90, 180, -180, -90]

/-- The loop of `snap_to_angle`: the first candidate whose absolute difference
from `angle_deg` is within tolerance. -/
noncomputable def first_snap_angle (angle_deg : ℝ) : Option ℝ :=
  snap_angles.find? (fun c => decide (|angle_deg - c| ≤ snap_angle_tolerance_deg))

/-- `snap_to_angle` from `src/main.rs`. -/
noncomputable def snap_to_angle (start p : Pos2) : Pos2 :=
  let dx := p.x - start.x
  let dy := p.y - start.y
  let distance := Real.sqrt (dx ^ 2 + dy ^ 2)
  if distance < 0.001 then p
  else
    let angle_deg := toDegrees (atan2 dy dx)
    match first_snap_angle angle_deg with
    | some snap_angle =>
        ⟨start.x + distance * Real.cos (toRadians snap_angle),
         start.y + distance * Real.sin (toRadians snap_angle)⟩
    | none => p

/-- `snap_length_to_multiple` from `src/main.rs`. -/
noncomputable def snap_length_to_multiple (length multiple : ℝ) : ℝ :=
  if multiple ≤ 0 then length
  else rust_round (length / multiple) * multiple

/-- `snap_line_length` from `src/main.rs`. -/
noncomputable def snap_line_length (start p : Pos2) (multiple : ℝ) : Pos2 :=
  if multiple ≤ 0 then p
  else
    let dx := p.x - start.x
    let dy := p.y - start.y
    let distance := Real.sqrt (dx ^ 2 + dy ^ 2)
    if distance < 0.001 then p
    else
      let snapped_distance := snap_length_to_multiple distance multiple
      ⟨start.x + (dx / distance) * snapped_distance,
       start.y + (dy / distance) * snapped_distance⟩

/-- `snap_rect_dimensions` from `src/main.rs`. -/
noncomputable def snap_rect_dimensions (corner1 corner2 : Pos2) (multiple : ℝ) : Pos2 :=
  if multiple ≤ 0 then corner2
  else
    let dx := corner2.x - corner1.x
    let dy := corner2.y - corner1.y
    ⟨corner1.x + snap_length_to_multiple |dx| multiple * rust_signum dx,
     corner1.y + snap_length_to_multiple |dy| multiple * rust_signum dy⟩

/-- `MeasurementMode` from `src/main.rs`. -/
inductive MeasurementMode where
  | Line
  | Rectangle

/-- `MeasurementState` from `src/main.rs`. -/
inductive MeasurementState where
  | Idle
  | FirstPointSelected (p : Pos2)

/-- `CalibrationState` from `src/main.rs`. The Rust field `end` of
`WaitingForInput` is named `endp` here because `end` is a Lean keyword. -/
inductive CalibrationState where
  | Idle
  | FirstPointSelected (p : Pos2)
  | WaitingForInput (start : Pos2) (endp : Pos2) (distance_px : ℝ)

/-- The measurement branch of `SampoApp::handle_canvas_click`
(`is_calibrating == false`): returns the next capture state and the action
pushed to the history, if any. -/
noncomputable def handle_measurement_click (is_ctrl_pressed : Bool)
    (measurement_mode : MeasurementMode) (length_snap_multiple : ℝ)
    (image_pos : Pos2) (st : MeasurementState) : MeasurementState × Option Action :=
  match st with
  | .Idle => (.FirstPointSelected image_pos, none)
  | .FirstPointSelected start =>
      match measurement_mode with
      | .Line =>
          let angle_snapped := if is_ctrl_pressed then snap_to_angle start image_pos else image_pos
          let end_pos := snap_line_length start angle_snapped length_snap_multiple
          (.Idle, some (.AddLine (Measurement.new start end_pos)))
      | .Rectangle =>
          let end_pos := snap_rect_dimensions start image_pos length_snap_multiple
          (.Idle, some (.AddRect (RectangleMeasurement.new start end_pos)))

/-- The calibration branch of `SampoApp::handle_canvas_click`
(`is_calibrating == true`): clicks never push an action. -/
noncomputable def handle_calibration_click (is_ctrl_pressed : Bool)
    (length_snap_multiple : ℝ) (image_pos : Pos2)
    (st : CalibrationState) : CalibrationState :=
  match st with
  | .Idle => .FirstPointSelected image_pos
  | .FirstPointSelected start =>
      let angle_snapped := if is_ctrl_pressed then snap_to_angle start image_pos else image_pos
      let end_pos := snap_line_length start angle_snapped length_snap_multiple
      .WaitingForInput start end_pos (Pos2.distance start end_pos)
  | .WaitingForInput .. => st

/-- The calibration-submission handler of `SampoApp::show_controls_panel`
(the clicked branch of the apply button). The external
`calibration_input.parse::<f32>()` result is modelled as an `Option ℝ`
argument. Returns the emitted action, if any, and the next calibration state
(`Idle` on success, unchanged otherwise). -/
noncomputable def submit_calibration (parsed_real_distance : Option ℝ)
    (calibration_unit : String) (st : CalibrationState) :
    Option Action × CalibrationState :=
  match st with
  | .WaitingForInput start endp distance_px =>
      match parsed_real_distance with
      | some real_distance =>
          if 0 < real_distance then
            (some (.SetCalibration (some
               { pixels_per_unit := distance_px / real_distance
                 unit_name := calibration_unit })),
             .Idle)
          else (none, .WaitingForInput start endp distance_px)
      | none => (none, .WaitingForInput start endp distance_px)
  | _ => (none, st)

/-! ## Helper lemmas for the history engine -/

lemma push_list_cursor : ∀ (acts : List Action) (h : History),
    h.cursor = h.actions.length →
    (push_list acts h).cursor = (push_list acts h).actions.length
  | [], _, hc => hc
  | _ :: l, h, _ => push_list_cursor l (h.push_action _) rfl

lemma undo_one (h : History) (h0 : 0 < h.cursor) :
    h.undo = (true, ⟨h.actions, h.cursor - 1⟩) := by
  simp [History.undo, History.can_undo, h0]

lemma redo_one (h : History) (h0 : h.cursor < h.actions.length) :
    h.redo = (true, ⟨h.actions, h.cursor + 1⟩) := by
  simp [History.redo, History.can_redo, h0]

lemma undo_iter_spec : ∀ (k : Nat) (h : History), k ≤ h.cursor →
    undo_iter k h = (true, ⟨h.actions, h.cursor - k⟩)
  | 0, h, _ => by simp [undo_iter]
  | k + 1, h, hk => by
      have h0 : 0 < h.cursor := Nat.lt_of_lt_of_le (Nat.succ_pos k) hk
      have hrec := undo_iter_spec k ⟨h.actions, h.cursor - 1⟩ (Nat.le_sub_one_of_lt hk)
      have hsub : h.cursor - 1 - k = h.cursor - (k + 1) := by omega
      rw [undo_iter, undo_one h h0]
      simpa [hsub] using hrec

lemma redo_iter_spec : ∀ (k : Nat) (h : History), h.cursor + k ≤ h.actions.length →
    redo_iter k h = (true, ⟨h.actions, h.cursor + k⟩)
  | 0, h, _ => by simp [redo_iter]
  | k + 1, h, hk => by
      have h0 : h.cursor < h.actions.length := by omega
      have hrec := redo_iter_spec k ⟨h.actions, h.cursor + 1⟩ (by simp; omega)
      have hadd : h.cursor + 1 + k = h.cursor + (k + 1) := by omega
      rw [redo_iter, redo_one h h0]
      simpa [hadd] using hrec

/-! ## Claim theorems -/

/-- C1: for every history reached by a sequence of `push_action` calls from the
empty history and every `k` not exceeding the number of applied actions
(the cursor), `k` undo calls all succeed, the following `k` redo calls all
succeed, and `rebuild_state` after the redos equals `rebuild_state` before
the undos. -/
theorem C1_undo_redo_roundtrip (acts : List Action) (k : Nat)
    (hk : k ≤ (push_list acts ⟨[], 0⟩).cursor) :
    (undo_iter k (push_list acts ⟨[], 0⟩)).1 = true ∧
    (redo_iter k (undo_iter k (push_list acts ⟨[], 0⟩)).2).1 = true ∧
    (redo_iter k (undo_iter k (push_list acts ⟨[], 0⟩)).2).2.rebuild_state
      = (push_list acts ⟨[], 0⟩).rebuild_state := by
  have hcl : (push_list acts ⟨[], 0⟩).cursor = (push_list acts ⟨[], 0⟩).actions.length :=
    push_list_cursor acts ⟨[], 0⟩ rfl
  have hu := undo_iter_spec k (push_list acts ⟨[], 0⟩) hk
  have hr := redo_iter_spec k ⟨(push_list acts ⟨[], 0⟩).actions,
      (push_list acts ⟨[], 0⟩).cursor - k⟩ (by simp; omega)
  have hck : (push_list acts ⟨[], 0⟩).cursor - k + k = (push_list acts ⟨[], 0⟩).cursor := by
    omega
  refine ⟨by rw [hu], by rw [hu]; rw [hr], ?_⟩
  rw [hu]
  show (redo_iter k ⟨(push_list acts ⟨[], 0⟩).actions,
      (push_list acts ⟨[], 0⟩).cursor - k⟩).2.rebuild_state = _
  rw [hr]
  show History.rebuild_state ⟨(push_list acts ⟨[], 0⟩).actions,
      (push_list acts ⟨[], 0⟩).cursor - k + k⟩ = _
  rw [hck]

/-- C1 witness: two pushes, one undo, one redo. -/
theorem C1_undo_redo_roundtrip_witness :
    (1 ≤ (push_list [Action.RemoveLine 0, Action.RemoveLine 1] ⟨[], 0⟩).cursor) ∧
    ((undo_iter 1 (push_list [Action.RemoveLine 0, Action.RemoveLine 1] ⟨[], 0⟩)).1 = true ∧
     (redo_iter 1 (undo_iter 1 (push_list [Action.RemoveLine 0, Action.RemoveLine 1] ⟨[], 0⟩)).2).1 = true ∧
     (redo_iter 1 (undo_iter 1 (push_list [Action.RemoveLine 0, Action.RemoveLine 1] ⟨[], 0⟩)).2).2.rebuild_state
       = (push_list [Action.RemoveLine 0, Action.RemoveLine 1] ⟨[], 0⟩).rebuild_state) :=
  ⟨by decide, C1_undo_redo_roundtrip [Action.RemoveLine 0, Action.RemoveLine 1] 1 (by decide)⟩

/-- C2: `push_action` truncates the log to the cursor when there is a redo
tail, appends the new action, and sets the cursor to the new length; hence
`can_redo` is false immediately after any `push_action`. -/
theorem C2_push_action_contract (h : History) (a : Action) :
    (h.push_action a).actions =
      (if h.cursor < h.actions.length then h.actions.take h.cursor else h.actions) ++ [a] ∧
    (h.push_action a).cursor = (h.push_action a).actions.length ∧
    (h.push_action a).can_redo = false := by
  refine ⟨rfl, rfl, ?_⟩
  simp [History.push_action, History.can_redo]

/-- C3: the invariant `cursor ≤ actions.len()` (the lower bound `0 ≤ cursor`
is automatic for `Nat`) holds for the empty history and is preserved by
`push_action`, `undo`, `redo` and `reset_with_calibration`; `undo` at
`cursor = 0` and `redo` at `cursor = actions.len()` fail and change nothing. -/
theorem C3_history_invariant :
    history_inv ⟨[], 0⟩ ∧
    (∀ (h : History) (a : Action), history_inv h → history_inv (h.push_action a)) ∧
    (∀ h : History, history_inv h → history_inv h.undo.2) ∧
    (∀ h : History, history_inv h → history_inv h.redo.2) ∧
    (∀ (h : History) (c : Option Calibration), history_inv h →
        history_inv (h.reset_with_calibration c)) ∧
    (∀ h : History, h.cursor = 0 → h.undo = (false, h)) ∧
    (∀ h : History, h.cursor = h.actions.length → h.redo = (false, h)) := by
  refine ⟨Nat.le_refl 0, ?_, ?_, ?_, ?_, ?_, ?_⟩
  · intro h a _
    exact Nat.le_refl _
  · intro h hinv
    rw [History.undo]
    split
    · exact Nat.le_trans (Nat.sub_le _ _) hinv
    · exact hinv
  · intro h hinv
    rw [History.redo]
    split
    · next hc =>
        simp only [History.can_redo, decide_eq_true_eq] at hc
        exact hc
    · exact hinv
  · intro h c _
    cases c <;> simp [History.reset_with_calibration, history_inv]
  · intro h h0
    simp [History.undo, History.can_undo, h0]
  · intro h hc
    simp [History.redo, History.can_redo, hc]

/-- C3 witness: concrete instantiations of every hypothesis-bearing part. -/
theorem C3_history_invariant_witness :
    history_inv (History.push_action ⟨[Action.RemoveLine 0], 1⟩ (Action.RemoveLine 1)) ∧
    history_inv (History.undo ⟨[Action.RemoveLine 0], 1⟩).2 ∧
    history_inv (History.redo ⟨[Action.RemoveLine 0], 0⟩).2 ∧
    history_inv (History.reset_with_calibration ⟨[Action.RemoveLine 0], 1⟩ none) ∧
    History.undo ⟨[], 0⟩ = (false, ⟨[], 0⟩) ∧
    History.redo ⟨[Action.RemoveLine 0], 1⟩ = (false, ⟨[Action.RemoveLine 0], 1⟩) := by
  obtain ⟨-, hp, hu, hr, hrst, hu0, hrl⟩ := C3_history_invariant
  exact ⟨hp _ _ (Nat.le_refl 1), hu _ (Nat.le_refl 1), hr _ (Nat.zero_le 1),
    hrst _ _ (Nat.le_refl 1), hu0 _ rfl, hrl _ rfl⟩

/-- C4: `rebuild_state` is a pure function of the log prefix
`actions[0..cursor]`: equal prefixes yield equal derived states, and applying
it twice to the same `(actions, cursor)` pair yields identical output. -/
theorem C4_rebuild_pure_of_take (h1 h2 : History)
    (hpre : h1.actions.take h1.cursor = h2.actions.take h2.cursor) :
    h1.rebuild_state = h2.rebuild_state ∧
    History.rebuild_state ⟨h1.actions, h1.cursor⟩ =
      History.rebuild_state ⟨h1.actions, h1.cursor⟩ := by
  refine ⟨?_, rfl⟩
  unfold History.rebuild_state
  rw [hpre]

/-- C4 witness: two different logs with the same prefix below the cursor. -/
theorem C4_rebuild_pure_of_take_witness :
    ((⟨[Action.RemoveLine 0], 0⟩ : History).actions.take
        (⟨[Action.RemoveLine 0], 0⟩ : History).cursor
      = (⟨[], 0⟩ : History).actions.take (⟨[], 0⟩ : History).cursor) ∧
    (⟨[Action.RemoveLine 0], 0⟩ : History).rebuild_state
      = (⟨[], 0⟩ : History).rebuild_state :=
  ⟨rfl, (C4_rebuild_pure_of_take ⟨[Action.RemoveLine 0], 0⟩ ⟨[], 0⟩ rfl).1⟩

/-- C5: during replay, a `RemoveLine i` or `RemoveRect i` whose index is not
less than the current accumulated list length leaves the state unchanged and
the fold simply continues with the remaining actions. -/
theorem C5_stale_remove_noop (s : DerivedState) (i : Nat) (rest : List Action) :
    (s.measurements.length ≤ i →
        applyAction s (Action.RemoveLine i) = s ∧
        (Action.RemoveLine i :: rest).foldl applyAction s = rest.foldl applyAction s) ∧
    (s.rectangle_measurements.length ≤ i →
        applyAction s (Action.RemoveRect i) = s ∧
        (Action.RemoveRect i :: rest).foldl applyAction s = rest.foldl applyAction s) := by
  have hL : s.measurements.length ≤ i → applyAction s (Action.RemoveLine i) = s := by
    intro hi
    simp [applyAction, Nat.not_lt.2 hi]
  have hR : s.rectangle_measurements.length ≤ i → applyAction s (Action.RemoveRect i) = s := by
    intro hi
    simp [applyAction, Nat.not_lt.2 hi]
  refine ⟨fun hi => ⟨hL hi, ?_⟩, fun hi => ⟨hR hi, ?_⟩⟩
  · rw [List.foldl_cons, hL hi]
  · rw [List.foldl_cons, hR hi]

/-- C5 witness: a stale index on the empty derived state. -/
theorem C5_stale_remove_noop_witness :
    ((⟨[], [], none⟩ : DerivedState).measurements.length ≤ 3) ∧
    applyAction ⟨[], [], none⟩ (Action.RemoveLine 3) = ⟨[], [], none⟩ ∧
    ((⟨[], [], none⟩ : DerivedState).rectangle_measurements.length ≤ 3) ∧
    applyAction ⟨[], [], none⟩ (Action.RemoveRect 3) = ⟨[], [], none⟩ := by
  obtain ⟨h1, h2⟩ := C5_stale_remove_noop ⟨[], [], none⟩ 3 []
  exact ⟨Nat.zero_le 3, (h1 (Nat.zero_le 3)).1, Nat.zero_le 3, (h2 (Nat.zero_le 3)).1⟩

/-! ## Geometry lemmas and claims -/

lemma rust_round_int (x : ℝ) : ∃ k : ℤ, rust_round x = (k : ℝ) := by
  unfold rust_round
  split
  · exact ⟨-⌊-x + 1 / 2⌋, by push_cast; ring⟩
  · exact ⟨⌊x + 1 / 2⌋, rfl⟩

/-- C8: `snap_length_to_multiple` returns the length unchanged when the
multiple is non-positive, and otherwise returns the rounded quotient times the
multiple, which is an exact integer multiple of it. -/
theorem C8_snap_length_to_multiple (length multiple : ℝ) :
    (multiple ≤ 0 → snap_length_to_multiple length multiple = length) ∧
    (0 < multiple →
        snap_length_to_multiple length multiple = rust_round (length / multiple) * multiple ∧
        ∃ k : ℤ, snap_length_to_multiple length multiple = (k : ℝ) * multiple) := by
  constructor
  · intro hm
    simp [snap_length_to_multiple, hm]
  · intro hm
    have hne : ¬ multiple ≤ 0 := not_le.2 hm
    have heq : snap_length_to_multiple length multiple
        = rust_round (length / multiple) * multiple := by
      simp [snap_length_to_multiple, hne]
    refine ⟨heq, ?_⟩
    obtain ⟨k, hk⟩ := rust_round_int (length / multiple)
    exact ⟨k, by rw [heq, hk]⟩

/-- C8 witness: a disabled multiple and a positive multiple. -/
theorem C8_snap_length_to_multiple_witness :
    ((-1 : ℝ) ≤ 0) ∧ snap_length_to_multiple 7 (-1) = 7 ∧
    ((0 : ℝ) < 2) ∧ (snap_length_to_multiple 7 2 = rust_round (7 / 2) * 2 ∧
      ∃ k : ℤ, snap_length_to_multiple 7 2 = (k : ℝ) * 2) :=
  ⟨by norm_num, (C8_snap_length_to_multiple 7 (-1)).1 (by norm_num),
   by norm_num, (C8_snap_length_to_multiple 7 2).2 (by norm_num)⟩

/-- C9: a second click at `p` in line mode commits exactly one `AddLine` built
from `Measurement.new start end_pos` where `end_pos` applies angle snap first
(when Ctrl is held) and length snap second, and the capture state returns to
`Idle` unconditionally. -/
theorem C9_line_commit (is_ctrl_pressed : Bool) (length_snap_multiple : ℝ)
    (image_pos start : Pos2) :
    handle_measurement_click is_ctrl_pressed MeasurementMode.Line length_snap_multiple
        image_pos (MeasurementState.FirstPointSelected start)
      = (MeasurementState.Idle,
         some (Action.AddLine (Measurement.new start
           (snap_line_length start
             (if is_ctrl_pressed then snap_to_angle start image_pos else image_pos)
             length_snap_multiple)))) := rfl

/-- C10: with a positive multiple `m` and a non-degenerate click whose distance
is below `m / 2`, `snap_line_length` collapses the endpoint exactly onto
`start`, so the committed measurement has coincident endpoints and
`distance_px = 0`. -/
theorem C10_length_snap_collapses (start p : Pos2) (m : ℝ)
    (hm : 0 < m) (h1 : 0.001 ≤ Pos2.distance start p)
    (h2 : Pos2.distance start p < m / 2) :
    snap_line_length start p m = start ∧
    (Measurement.new start (snap_line_length start p m)).distance_px = 0 := by
  have hd0 : 0 < Pos2.distance start p := lt_of_lt_of_le (by norm_num) h1
  have hmle : ¬ m ≤ 0 := not_le.2 hm
  have hdlt : ¬ Pos2.distance start p < 0.001 := not_lt.2 h1
  have hq0 : 0 ≤ Pos2.distance start p / m := div_nonneg hd0.le hm.le
  have hqlt : Pos2.distance start p / m < 1 / 2 := by
    rw [div_lt_div_iff₀ hm (by norm_num : (0 : ℝ) < 2)]
    linarith
  have hfloor : ⌊Pos2.distance start p / m + 1 / 2⌋ = 0 := by
    rw [Int.floor_eq_zero_iff]
    constructor <;> simp <;> linarith
  have hround : rust_round (Pos2.distance start p / m) = 0 := by
    rw [rust_round, if_neg (not_lt.2 hq0), hfloor]
    norm_num
  have hsnap : snap_length_to_multiple (Pos2.distance start p) m = 0 := by
    rw [snap_length_to_multiple, if_neg hmle, hround, zero_mul]
  have hmain : snap_line_length start p m = start := by
    show (if m ≤ 0 then p
      else if Pos2.distance start p < 0.001 then p
      else ⟨start.x + ((p.x - start.x) / Pos2.distance start p)
              * snap_length_to_multiple (Pos2.distance start p) m,
            start.y + ((p.y - start.y) / Pos2.distance start p)
              * snap_length_to_multiple (Pos2.distance start p) m⟩) = start
    rw [if_neg hmle, if_neg hdlt, hsnap]
    simp
  refine ⟨hmain, ?_⟩
  rw [hmain]
  show Pos2.distance start start = 0
  simp [Pos2.distance]

/-- C10 witness: a one-pixel click with a ten-pixel snap multiple. -/
theorem C10_length_snap_collapses_witness :
    ((0 : ℝ) < 10) ∧ (0.001 ≤ Pos2.distance ⟨0, 0⟩ ⟨1, 0⟩) ∧
    (Pos2.distance ⟨0, 0⟩ ⟨1, 0⟩ < 10 / 2) ∧
    snap_line_length ⟨0, 0⟩ ⟨1, 0⟩ 10 = ⟨0, 0⟩ ∧
    (Measurement.new ⟨0, 0⟩ (snap_line_length ⟨0, 0⟩ ⟨1, 0⟩ 10)).distance_px = 0 := by
  have hdist : Pos2.distance (⟨0, 0⟩ : Pos2) ⟨1, 0⟩ = 1 := by
    have h4 : (((1 : ℝ)) - 0) ^ 2 + ((0 : ℝ) - 0) ^ 2 = 1 ^ 2 := by norm_num
    show Real.sqrt (((1 : ℝ) - 0) ^ 2 + ((0 : ℝ) - 0) ^ 2) = 1
    rw [h4, Real.sqrt_sq (by norm_num : (0 : ℝ) ≤ 1)]
  have hc := C10_length_snap_collapses ⟨0, 0⟩ ⟨1, 0⟩ 10 (by norm_num)
    (by rw [hdist]; norm_num) (by rw [hdist]; norm_num)
  exact ⟨by norm_num, by rw [hdist]; norm_num, by rw [hdist]; norm_num, hc.1, hc.2⟩

/-! ## Calibration submission (C6) -/

/-- Clicking the second calibration point on top of the first (with length
snapping disabled) stores `distance_px = 0` in `WaitingForInput`. -/
lemma calib_click_waiting_zero :
    handle_calibration_click false 0 ⟨0, 0⟩
        (CalibrationState.FirstPointSelected ⟨0, 0⟩)
      = CalibrationState.WaitingForInput ⟨0, 0⟩ ⟨0, 0⟩ 0 := by
  have hsnap : snap_line_length (⟨0, 0⟩ : Pos2) ⟨0, 0⟩ 0 = ⟨0, 0⟩ := by
    rw [snap_line_length, if_pos (le_refl (0 : ℝ))]
  have hdist : Pos2.distance (⟨0, 0⟩ : Pos2) ⟨0, 0⟩ = 0 := by
    show Real.sqrt (((0 : ℝ) - 0) ^ 2 + ((0 : ℝ) - 0) ^ 2) = 0
    norm_num
  show CalibrationState.WaitingForInput ⟨0, 0⟩ (snap_line_length ⟨0, 0⟩ ⟨0, 0⟩ 0)
      (Pos2.distance ⟨0, 0⟩ (snap_line_length ⟨0, 0⟩ ⟨0, 0⟩ 0))
    = CalibrationState.WaitingForInput ⟨0, 0⟩ ⟨0, 0⟩ 0
  rw [hsnap, hdist]

/-- C6 counterexample: from calibration `Idle`, clicking the same point twice
and submitting the (positive, finite) real distance `1` emits a
`SetCalibration` whose `pixels_per_unit` is `0`, refuting the claim that every
constructed `Calibration` has `pixels_per_unit > 0`. -/
theorem C6_counterexample :
    submit_calibration (some 1) ("mm")
        (handle_calibration_click false 0 ⟨0, 0⟩
          (handle_calibration_click false 0 ⟨0, 0⟩ CalibrationState.Idle))
      = (some (Action.SetCalibration (some { pixels_per_unit := 0, unit_name := "mm" })),
         CalibrationState.Idle) ∧
    ¬ 0 < (Calibration.mk 0 ("mm")).pixels_per_unit := by
  have hfirst : handle_calibration_click false 0 (⟨0, 0⟩ : Pos2) CalibrationState.Idle
      = CalibrationState.FirstPointSelected ⟨0, 0⟩ := rfl
  rw [hfirst, calib_click_waiting_zero]
  constructor
  · rw [submit_calibration]
    rw [if_pos (by norm_num : (0 : ℝ) < 1)]
    norm_num
  · show ¬ (0 : ℝ) < 0
    exact lt_irrefl 0

/-- C6 (amended): on submission in `WaitingForInput`, a `SetCalibration` with
`pixels_per_unit = distance_px / realDistance` is emitted and the state moves
to `Idle` exactly when the parsed real distance is positive, and nothing
changes otherwise; but every `Calibration` so constructed is only guaranteed
`pixels_per_unit ≥ 0`, because the stored `distance_px` (a Euclidean distance)
can be `0`. -/
theorem C6_calibration_submit_amended :
    (∀ (parsed : Option ℝ) (u : String) (s e : Pos2) (d r : ℝ),
        parsed = some r → 0 < r →
        submit_calibration parsed u (CalibrationState.WaitingForInput s e d)
          = (some (Action.SetCalibration (some
               { pixels_per_unit := d / r, unit_name := u })),
             CalibrationState.Idle)) ∧
    (∀ (parsed : Option ℝ) (u : String) (s e : Pos2) (d : ℝ),
        (∀ r : ℝ, parsed = some r → ¬ 0 < r) →
        submit_calibration parsed u (CalibrationState.WaitingForInput s e d)
          = (none, CalibrationState.WaitingForInput s e d)) ∧
    (∀ (ctrl : Bool) (m : ℝ) (p s e : Pos2) (d : ℝ),
        handle_calibration_click ctrl m p (CalibrationState.FirstPointSelected s)
          = CalibrationState.WaitingForInput s e d → 0 ≤ d) ∧
    (∀ (parsed : Option ℝ) (u : String) (s e : Pos2) (d : ℝ) (cal : Calibration),
        0 ≤ d →
        (submit_calibration parsed u (CalibrationState.WaitingForInput s e d)).1
          = some (Action.SetCalibration (some cal)) →
        0 ≤ cal.pixels_per_unit) := by
  refine ⟨?_, ?_, ?_, ?_⟩
  · intro parsed u s e d r hp hr
    subst hp
    rw [submit_calibration, if_pos hr]
  · intro parsed u s e d hp
    match parsed with
    | none => rfl
    | some r =>
        have hr := hp r rfl
        rw [submit_calibration, if_neg hr]
  · intro ctrl m p s e d heq
    have heq2 : Pos2.distance s
        (snap_line_length s (if ctrl then snap_to_angle s p else p) m) = d := by
      have h := heq
      rw [handle_calibration_click] at h
      simp only [CalibrationState.WaitingForInput.injEq] at h
      exact h.2.2
    rw [← heq2]
    exact Real.sqrt_nonneg _
  · intro parsed u s e d cal hd hemit
    match parsed with
    | none => exact absurd hemit (by simp [submit_calibration])
    | some r =>
        by_cases hr : 0 < r
        · rw [submit_calibration, if_pos hr] at hemit
          simp only [Option.some.injEq, Action.SetCalibration.injEq] at hemit
          rw [← hemit]
          exact div_nonneg hd hr.le
        · rw [submit_calibration, if_neg hr] at hemit
          exact absurd hemit (by simp)

/-- C6 amended witness: a positive submission, a failed parse, and the
distance stored by a concrete calibration click. -/
theorem C6_calibration_submit_amended_witness :
    submit_calibration (some 2) ("cm") (CalibrationState.WaitingForInput ⟨0, 0⟩ ⟨3, 4⟩ 5)
      = (some (Action.SetCalibration (some { pixels_per_unit := 5 / 2, unit_name := "cm" })),
         CalibrationState.Idle) ∧
    submit_calibration none ("cm") (CalibrationState.WaitingForInput ⟨0, 0⟩ ⟨3, 4⟩ 5)
      = (none, CalibrationState.WaitingForInput ⟨0, 0⟩ ⟨3, 4⟩ 5) ∧
    ((0 : ℝ) ≤ 0) ∧
    ((0 : ℝ) ≤ 5) ∧
    (0 : ℝ) ≤ (Calibration.mk (5 / 2) ("cm")).pixels_per_unit := by
  obtain ⟨h1, h2, h3, h4⟩ := C6_calibration_submit_amended
  have hs1 := h1 (some 2) ("cm") ⟨0, 0⟩ ⟨3, 4⟩ 5 2 rfl (by norm_num)
  refine ⟨hs1, h2 none ("cm") ⟨0, 0⟩ ⟨3, 4⟩ 5 (fun r hr => by cases hr), ?_, by norm_num, ?_⟩
  · exact h3 false 0 ⟨0, 0⟩ ⟨0, 0⟩ ⟨0, 0⟩ 0 calib_click_waiting_zero
  · refine h4 (some 2) ("cm") ⟨0, 0⟩ ⟨3, 4⟩ 5 (Calibration.mk (5 / 2) ("cm"))
      (by norm_num) ?_
    rw [hs1]

/-! ## Angle snapping (C7) -/

lemma dist_to_snapped (a : Pos2) (d θ : ℝ) (hd : 0 ≤ d) :
    Pos2.distance a ⟨a.x + d * Real.cos θ, a.y + d * Real.sin θ⟩ = d := by
  show Real.sqrt ((a.x + d * Real.cos θ - a.x) ^ 2 + (a.y + d * Real.sin θ - a.y) ^ 2) = d
  have h1 : a.x + d * Real.cos θ - a.x = d * Real.cos θ := by ring
  have h2 : a.y + d * Real.sin θ - a.y = d * Real.sin θ := by ring
  rw [h1, h2, mul_pow, mul_pow, ← mul_add, Real.cos_sq_add_sin_sq, mul_one,
    Real.sqrt_sq hd]

lemma angle_of_snapped (d θ : ℝ) (hd : 0 < d) :
    ((atan2 (d * Real.sin θ) (d * Real.cos θ) : ℝ) : Real.Angle) = (θ : Real.Angle) := by
  have hmk : (⟨d * Real.cos θ, d * Real.sin θ⟩ : ℂ)
      = (d : ℂ) * (Real.Angle.cos (θ : Real.Angle)
          + Real.Angle.sin (θ : Real.Angle) * Complex.I) := by
    rw [Real.Angle.cos_coe, Real.Angle.sin_coe, Complex.mk_eq_add_mul_I]
    push_cast
    ring
  show ((Complex.arg ⟨d * Real.cos θ, d * Real.sin θ⟩ : ℝ) : Real.Angle) = (θ : Real.Angle)
  rw [hmk]
  exact Complex.arg_mul_cos_add_sin_mul_I_coe_angle hd (θ : Real.Angle)

/-- C7: when the click is degenerate (distance below `0.001`) `snap_to_angle`
returns the endpoint unchanged; otherwise, when the first candidate of
`[0, 90, 180, -180, -90]` within `5°` of the measured angle is `c`, the result
is `start + distance * (cos c, sin c)` — at the same distance from `start` as
the original point and (as an angle modulo `2π`) exactly at the snapped
angle — and when no candidate is within tolerance the endpoint is returned
unchanged. -/
theorem C7_snap_to_angle_spec (start p : Pos2) :
    (Pos2.distance start p < 0.001 → snap_to_angle start p = p) ∧
    (¬ Pos2.distance start p < 0.001 →
      (∀ c : ℝ,
          first_snap_angle (toDegrees (atan2 (p.y - start.y) (p.x - start.x))) = some c →
          snap_to_angle start p =
            ⟨start.x + Pos2.distance start p * Real.cos (toRadians c),
             start.y + Pos2.distance start p * Real.sin (toRadians c)⟩ ∧
          Pos2.distance start (snap_to_angle start p) = Pos2.distance start p ∧
          ((atan2 ((snap_to_angle start p).y - start.y)
              ((snap_to_angle start p).x - start.x) : ℝ) : Real.Angle)
            = ((toRadians c : ℝ) : Real.Angle)) ∧
      (first_snap_angle (toDegrees (atan2 (p.y - start.y) (p.x - start.x))) = none →
          snap_to_angle start p = p)) := by
  have hbody : snap_to_angle start p =
      (if Pos2.distance start p < 0.001 then p
       else
         match first_snap_angle (toDegrees (atan2 (p.y - start.y) (p.x - start.x))) with
         | some c =>
             (⟨start.x + Pos2.distance start p * Real.cos (toRadians c),
               start.y + Pos2.distance start p * Real.sin (toRadians c)⟩ : Pos2)
         | none => p) := rfl
  constructor
  · intro hlt
    rw [hbody, if_pos hlt]
  · intro hge
    have hd : 0 < Pos2.distance start p :=
      lt_of_lt_of_le (by norm_num) (not_lt.1 hge)
    constructor
    · intro c hc
      have hsnap : snap_to_angle start p =
          (⟨start.x + Pos2.distance start p * Real.cos (toRadians c),
            start.y + Pos2.distance start p * Real.sin (toRadians c)⟩ : Pos2) := by
        rw [hbody, if_neg hge, hc]
      refine ⟨hsnap, ?_, ?_⟩
      · rw [hsnap]
        exact dist_to_snapped start (Pos2.distance start p) (toRadians c) hd.le
      · rw [hsnap]
        have h1 : start.x + Pos2.distance start p * Real.cos (toRadians c) - start.x
            = Pos2.distance start p * Real.cos (toRadians c) := by ring
        have h2 : start.y + Pos2.distance start p * Real.sin (toRadians c) - start.y
            = Pos2.distance start p * Real.sin (toRadians c) := by ring
        show ((atan2 (start.y + Pos2.distance start p * Real.sin (toRadians c) - start.y)
            (start.x + Pos2.distance start p * Real.cos (toRadians c) - start.x) : ℝ)
            : Real.Angle) = ((toRadians c : ℝ) : Real.Angle)
        rw [h1, h2]
        exact angle_of_snapped (Pos2.distance start p) (toRadians c) hd
    · intro hnone
      rw [hbody, if_neg hge, hnone]

/-- C7 witness: a horizontal two-pixel click snaps to the first candidate. -/
theorem C7_snap_to_angle_spec_witness :
    (¬ Pos2.distance ⟨0, 0⟩ ⟨2, 0⟩ < 0.001) ∧
    first_snap_angle (toDegrees (atan2 ((0 : ℝ) - 0) ((2 : ℝ) - 0))) = some 0 ∧
    snap_to_angle ⟨0, 0⟩ ⟨2, 0⟩ =
      ⟨0 + Pos2.distance ⟨0, 0⟩ ⟨2, 0⟩ * Real.cos (toRadians 0),
       0 + Pos2.distance ⟨0, 0⟩ ⟨2, 0⟩ * Real.sin (toRadians 0)⟩ := by
  have hdist : Pos2.distance (⟨0, 0⟩ : Pos2) ⟨2, 0⟩ = 2 := by
    have h4 : ((2 : ℝ) - 0) ^ 2 + ((0 : ℝ) - 0) ^ 2 = 2 ^ 2 := by norm_num
    show Real.sqrt (((2 : ℝ) - 0) ^ 2 + ((0 : ℝ) - 0) ^ 2) = 2
    rw [h4, Real.sqrt_sq (by norm_num : (0 : ℝ) ≤ 2)]
  have hne : ¬ Pos2.distance (⟨0, 0⟩ : Pos2) ⟨2, 0⟩ < 0.001 := by
    rw [hdist]; norm_num
  have harg : atan2 ((0 : ℝ) - 0) ((2 : ℝ) - 0) = 0 := by
    show Complex.arg ⟨(2 : ℝ) - 0, (0 : ℝ) - 0⟩ = 0
    have hc2 : (⟨(2 : ℝ) - 0, (0 : ℝ) - 0⟩ : ℂ) = ((2 : ℝ) : ℂ) := by
      rw [Complex.mk_eq_add_mul_I]
      push_cast
      ring
    rw [hc2]
    exact Complex.arg_ofReal_of_nonneg (by norm_num)
  have hdeg : toDegrees (atan2 ((0 : ℝ) - 0) ((2 : ℝ) - 0)) = 0 := by
    rw [harg]
    simp [toDegrees]
  have hfind : first_snap_angle (toDegrees (atan2 ((0 : ℝ) - 0) ((2 : ℝ) - 0))) = some 0 := by
    rw [hdeg, first_snap_angle, snap_angles]
    apply List.find?_cons_of_pos
    simp only [decide_eq_true_eq, snap_angle_tolerance_deg]
    norm_num
  exact ⟨hne, hfind, (((C7_snap_to_angle_spec ⟨0, 0⟩ ⟨2, 0⟩).2 hne).1 0 hfind).1⟩

end Sampo
